import Mathlib

/-!
Verification of the step-by-step ASR decoder core
(`lingvo/tasks/asr/decoder.py`, classes `AsrDecoderBase` / `AsrDecoder`).

Shallow embedding conventions used throughout this file:

* Tensors are modelled with exact rational arithmetic; a per-step vector is
  `V := List ℚ`.  The batch dimension is collapsed to a single example: every
  tensorflow operation in the decoder core is applied uniformly across the
  batch dimension, so the per-example semantics is unchanged.
* External collaborators (attention module, RNN cells, embedding table,
  softmax layer, fusion module, contextualizer, dropout) live outside
  `decoder.py`; they are modelled as opaque function fields of a `Model`
  structure, exactly with the signatures the decoder calls them with.
* Fallible python code (`raise`, `assert`) is modelled with
  `Except String`.
-/

/-- A per-step vector of activations (one batch element). -/
abbrev V : Type := List ℚ

/-- Elementwise vector addition (`tf` `+` on equal-shaped tensors). -/
def vadd (a b : V) : V := List.zipWith (· + ·) a b

/-- The `step_state` sub-map of `misc_states`: `global_step` and `time_step`
counters (both `tf.int64` in the source; width is irrelevant here). -/
structure StepState where
  global_step : Int
  time_step : Int
deriving Repr, DecidableEq

/-- The `misc_states` NestedMap built by `AsrDecoderBase.MiscZeroState`:
always a `step_state`; the scheduled-sampling fields `prev_predicted_ids`
and `groundtruth_p` are present exactly when `_max_label_prob > 0`
(modelled with `Option`). -/
structure MiscStates where
  step_state : StepState
  prev_predicted_ids : Option Int
  groundtruth_p : Option ℚ
deriving Repr, DecidableEq

/-- The slice of `AsrDecoderBase.Params()` that the verified code paths read.
Fields keep the names from the source. -/
structure Params where
  dropout_prob : ℚ
  min_ground_truth_prob : ℚ
  min_prob_step : ℚ
  prob_decay_start_step : ℚ
  use_while_loop_based_unrolling : Bool
  use_unnormalized_logits_as_log_probs : Bool
  softmax_uses_attention : Bool
  residual_start : Nat
  rnn_layers : Nat
  rnn_cell_dim : Nat
  per_token_avg_loss : Bool
  packed_input : Bool
  label_smoothing_num_classes : Option Nat
  softmax_num_classes : Nat
  is_eval : Bool
deriving Repr, DecidableEq

/-- The default values set in `AsrDecoderBase.Params()` (plus
`packed_input`/`is_eval` defaults inherited from the base layer params). -/
def defaultParams : Params where
  dropout_prob := 0
  min_ground_truth_prob := 1
  min_prob_step := 1000000
  prob_decay_start_step := 10000
  use_while_loop_based_unrolling := true
  use_unnormalized_logits_as_log_probs := true
  softmax_uses_attention := true
  residual_start := 0
  rnn_layers := 1
  rnn_cell_dim := 256
  per_token_avg_loss := true
  packed_input := false
  label_smoothing_num_classes := none
  softmax_num_classes := 96
  is_eval := false

/-- `_max_label_prob = 1 - p.min_ground_truth_prob` (set in `__init__`). -/
def maxLabelProb (p : Params) : ℚ := 1 - p.min_ground_truth_prob

/-- `_decay_interval = p.min_prob_step - p.prob_decay_start_step`
(set in `__init__`). -/
def decayInterval (p : Params) : ℚ := p.min_prob_step - p.prob_decay_start_step

/-- The constructor-time validation performed by `AsrDecoderBase.__init__`,
in source order: the `packed_input` assertion, the
`min_prob_step <= prob_decay_start_step` check, and the label-smoothing
vocabulary-size check.  Everything else in `__init__` is child-layer
construction and cannot raise on configuration values. -/
def initChecks (p : Params) : Except String Unit :=
  if p.packed_input then
    Except.error "Packed inputs are not yet supported for AsrDecoderBase."
  else if decayInterval p ≤ 0 then
    Except.error "min_prob_step <= prob_decay_start_step"
  else
    match p.label_smoothing_num_classes with
    | none => Except.ok ()
    | some n =>
        if n ≠ 0 ∧ n ≠ p.softmax_num_classes then
          Except.error "label_smoothing.num_classes does not match softmax.num_classes"
        else Except.ok ()

/-- The ground-truth-sampling probability computed inside
`AsrDecoderBase.MiscZeroState` from the (float-cast) global step:
`sampling_p = (step - prob_decay_start_step) / _decay_interval`,
`groundtruth_p = 1 - _max_label_prob * sampling_p`, clamped with
`tf.maximum(·, min_ground_truth_prob)` then `tf.minimum(·, 1.0)`. -/
def groundtruthP (p : Params) (step : ℚ) : ℚ :=
  let sampling_p : ℚ := (step - p.prob_decay_start_step) / decayInterval p
  let g : ℚ := 1 - maxLabelProb p * sampling_p
  min (max g p.min_ground_truth_prob) 1

/-- `AsrDecoderBase.MiscZeroState`: step counters start at
`(global_step, 0)`; when `_max_label_prob > 0`, `prev_predicted_ids` is
seeded from the first target id and `groundtruth_p` is computed once from
the global step. -/
def MiscZeroState (p : Params) (global_step : Int) (target_ids : List Int) : MiscStates :=
  let ss : StepState := { global_step := global_step, time_step := 0 }
  if maxLabelProb p > 0 then
    { step_state := ss
      prev_predicted_ids := some (target_ids.getD 0 0)
      groundtruth_p := some (groundtruthP p (global_step : ℚ)) }
  else
    { step_state := ss, prev_predicted_ids := none, groundtruth_p := none }

/-! ## Loss and metrics aggregation (`AsrDecoderBase._ComputeMetrics`)

`logits` is `[batch, time, vocab]`, `target_labels` and `target_weights`
are `[batch, time]`.  The two tensorflow cross-entropy kernels
(`sparse_softmax_cross_entropy_with_logits` and
`softmax_cross_entropy_with_logits`) are external library operations and
are passed in as opaque functions. -/

/-- Index of the first maximum of a list (`tf.argmax` over the vocab axis;
ties resolve to the earliest index). -/
def argmaxIdx (l : List ℚ) : Nat :=
  (l.foldl
    (fun acc x =>
      if acc.2.1 < x then (acc.2.2, x, acc.2.2 + 1) else (acc.1, acc.2.1, acc.2.2 + 1))
    (0, l.headD 0, 0)).1

/-- The `per_example_loss` tensor of `_ComputeMetrics`: distributional
cross-entropy against `target_probs` when that is given, otherwise sparse
cross-entropy against `target_labels`.  `xentSparse`/`xentDist` stand for
the external tensorflow kernels, applied pointwise over `[batch, time]`. -/
def perExampleLoss (xentSparse : List ℚ → Int → ℚ) (xentDist : List ℚ → List ℚ → ℚ)
    (logits : List (List (List ℚ))) (target_labels : List (List Int))
    (target_probs : Option (List (List (List ℚ)))) : List (List ℚ) :=
  match target_probs with
  | some tp => List.zipWith (List.zipWith xentDist) logits tp
  | none => List.zipWith (List.zipWith xentSparse) logits target_labels

/-- The metrics dictionary returned by `_ComputeMetrics` (the
`fraction_of_correct_next_step_preds` entry exists only off TPU). -/
structure Metrics where
  loss : ℚ × ℚ
  log_pplx : ℚ × ℚ
  fraction_of_correct_next_step_preds : Option (ℚ × ℚ)
deriving Repr, DecidableEq

/-- `AsrDecoderBase._ComputeMetrics`.  Returns `(metrics, per_sequence_loss)`.
`use_tpu` models `py_utils.use_tpu()`. -/
def ComputeMetrics (p : Params) (use_tpu : Bool)
    (xentSparse : List ℚ → Int → ℚ) (xentDist : List ℚ → List ℚ → ℚ)
    (logits : List (List (List ℚ))) (target_labels : List (List Int))
    (target_weights : List (List ℚ))
    (target_probs : Option (List (List (List ℚ)))) : Metrics × List ℚ :=
  let target_weights_sum : ℚ := (target_weights.map List.sum).sum
  let target_weights_sum_eps : ℚ := target_weights_sum + 1 / 1000000
  let pel := perExampleLoss xentSparse xentDist logits target_labels target_probs
  let per_sequence_loss : List ℚ :=
    List.zipWith (fun ps ws => (List.zipWith (· * ·) ps ws).sum) pel target_weights
  let per_token_avg_loss : ℚ := per_sequence_loss.sum / target_weights_sum_eps
  let loss : ℚ × ℚ :=
    if p.per_token_avg_loss then (per_token_avg_loss, target_weights_sum)
    else (per_sequence_loss.sum / (per_sequence_loss.length : ℚ),
          (per_sequence_loss.length : ℚ))
  let accuracy : Option (ℚ × ℚ) :=
    if use_tpu then none
    else
      let correct : List (List ℚ) :=
        List.zipWith
          (fun lrow labrow =>
            List.zipWith (fun l lab => if (argmaxIdx l : Int) = lab then 1 else 0) lrow labrow)
          logits target_labels
      let correct_next_preds : ℚ :=
        (List.zipWith (fun cs ws => (List.zipWith (· * ·) cs ws).sum) correct target_weights).sum
      some (correct_next_preds / target_weights_sum_eps, target_weights_sum)
  ({ loss := loss
     log_pplx := (per_token_avg_loss, target_weights_sum)
     fraction_of_correct_next_step_preds := accuracy },
   per_sequence_loss)

/-! ## External collaborators

`Model` bundles the external layers the decoder calls (embedding table,
RNN cells, attention, contextualizer, dropout randomness, softmax and the
LM-fusion module).  None of these are implemented in `decoder.py`; they
are fixed-contract collaborators (spec section 6), so they are opaque
function fields here, one per call site signature in the source. -/

/-- Modelled from the spec: the external collaborators of the decoder
(spec section 6); their implementations (`attention.py`, `rnn_cell.py`,
`layers.py`, `fusion.py`, `contextualizer_base.py`,
`py_utils.DeterministicDropout`) are not part of this repository slice.

Fusion: the fusion contract (spec section 6) is
`FPropLm(fusion_state, ids, padding) -> (lm_output, new_fusion_state)` with
`FuseEmb`, `FuseOutput`, `ComputeLogitsWithLM` combining LM output with the
decoder quantities.  The fusion state is owned by the fused LM and advanced
only by `FPropLm`; the three combiners are pointwise combinations, so the
sequence-level calls made by `ComputePredictionsFunctional` are the
per-step calls mapped over time.  (This is the structure under which the
spec declares the two unrollers equivalent up to reordering, and it holds
for the default `NullFusion`.)

Dropout: `_ApplyDropout` (which is repository code) dispatches on its
`deterministic` argument between two distinct random mechanisms, and the
model keeps them distinct: `drop` is the step-seeded
`py_utils.DeterministicDropout` kernel (a function of the layer offset
and the step state, per spec section 5), while `dropNondet` stands for
the nondeterministic `tf.nn.dropout` draws (an arbitrary mask stream,
indexed here by layer offset and step position, with no assumed relation
to `drop`).  `embDrop` is the mask stream of the nondeterministic
embedding-tensor dropout, indexed by token position; every verified
statement about it either assumes dropout inert or proves a
disequality, so modelling it as one stream is immaterial. -/
structure Model where
  RnnState : Type
  AttenState : Type
  FState : Type
  PackedSrc : Type
  Source : Type
  /-- `rnn_cell[i].zero_state(bs)`. -/
  cellZeroState : Nat → RnnState
  /-- `rnn_cell[i].FProp(state, {act=[a, b], padding})`, returning the new
  state (the auxiliary output is discarded by the decoder). -/
  cellFProp : Nat → RnnState → V → V → V → RnnState
  /-- `rnn_cell[i].GetOutput(state)`. -/
  cellGetOutput : Nat → RnnState → V
  /-- `atten.InitForSourcePacked(source, source, padding)` (the packed
  source; the contextualizer InitAttention hook is a no-op on values). -/
  initForSourcePacked : Source → PackedSrc
  /-- `atten.ZeroAttentionState(srcLen, bs)`. -/
  zeroAttentionState : Source → AttenState
  /-- `atten.ComputeContextVectorWithSource(packed, query, state,
  step_state)` returning `(context, probs, new_state)`. -/
  attenCompute : PackedSrc → V → AttenState → StepState → V × V × AttenState
  /-- `contextualizer.ZeroAttention(bs, misc_zero_states, atten_context,
  packed_src)` (value-level: a function of the zero context). -/
  contextualizerZero : V → V
  /-- `contextualizer.QueryAttention(rnn_out, misc_states, atten_context,
  packed_src)` (value-level: a function of query and context). -/
  queryAttention : V → V → V
  /-- The zero query vector `tf.zeros([bs, p.rnn_cell_dim])`. -/
  zeroQuery : V
  /-- Embedding lookup `emb.EmbLookup(theta.emb, id)`. -/
  embLookup : Int → V
  /-- `py_utils.DeterministicDropout`: the step-seeded dropout kernel used
  by `_ApplyDropout` when `deterministic=True`; arguments are the extra
  seed (`i * 1000` decorrelation offset collapses to the layer index `i`)
  and the step state. -/
  drop : Nat → StepState → V → V
  /-- `tf.nn.dropout`: the nondeterministic dropout branch of
  `_ApplyDropout` (`deterministic=False`), modelled as an arbitrary mask
  stream indexed by the same layer offset and step state, with no assumed
  relation to `drop`. -/
  dropNondet : Nat → StepState → V → V
  /-- Mask stream of the (nondeterministic) embedding dropout applied to
  the whole
  `target_embs` tensor (indexed by token position). -/
  embDrop : Nat → V → V
  /-- The logits computed by `softmax.FProp`/`softmax.XentLoss` on an
  input vector (class weights and ids only enter the loss, not the
  logits). -/
  softmaxLogits : V → V
  /-- `tf.nn.log_softmax`, used by the beam-search pre-step callback. -/
  logSoftmax : V → V
  /-- `fusion.zero_state(bs)`. -/
  fusionZeroState : FState
  /-- Per-step `fusion.FPropLm(fusion_state, ids, paddings)`. -/
  fPropLm : FState → Int → V → V × FState
  /-- `fusion.FuseEmb(lm_output, emb)`. -/
  fuseEmb : V → V → V
  /-- `fusion.FuseOutput(lm_output, step_outs)`. -/
  fuseOutput : V → V → V
  /-- `fusion.ComputeLogitsWithLM(fusion_states, logits)`. -/
  computeLogitsWithLM : V → V

/-- The `DecoderStepState` NestedMap minus `fusion_states` (which
`SingleDecodeStep` neither reads nor writes; the graph-loop unroller
threads it separately and the functional unroller removes it from the
recurrent state). -/
structure CoreState (M : Model) where
  rnn_states : Nat → M.RnnState
  atten_context : V
  atten_probs : V
  atten_states : M.AttenState
  misc_states : MiscStates

/-- The `TargetInfo` namedtuple.  `misc` is a NestedMap, modelled as an
association list. -/
structure TargetInfo where
  id : Int
  label : Int
  weight : ℚ
  emb : V
  padding : V
  misc : List (String × V)

/-- The batched target tensors handed to `ComputePredictions*` (all
`[batch, time]`, batch collapsed), plus the optional `fst_bias_probs`
auxiliary input read by `CreateTargetInfoMisc`. -/
structure Targets where
  ids : List Int
  labels : List Int
  weights : List ℚ
  paddings : List ℚ
  fst_bias_probs : Option V

/-- The training-time `TargetInfo` buffer (`TensorArray`s per field, one
slot per time step; `misc` is a single NestedMap, not per-step). -/
structure TargetInfoTas where
  id : List Int
  label : List Int
  weight : List ℚ
  emb : List V
  padding : List V
  misc : List (String × V)

/-- `AsrDecoderBase.CreateTargetInfoMisc`. -/
def CreateTargetInfoMisc (targets : Targets) : List (String × V) :=
  match targets.fst_bias_probs with
  | some b => [("fst_bias_probs", b)]
  | none => []

/-- The per-step padding slices
(`tf.expand_dims(tf.transpose(targets.paddings), -1)`): each slot is the
`[batch, 1]`-shaped padding, hence a singleton vector. -/
def padsOf (targets : Targets) : List V := targets.paddings.map (fun q => [q])

/-- `AsrDecoderBase._GetInitialTargetInfo`: unstacks the target tensors
(time-major) into the `TargetInfo` buffer. -/
def GetInitialTargetInfo (targets : Targets) (target_embs : List V) : TargetInfoTas where
  id := targets.ids
  label := targets.labels
  weight := targets.weights
  emb := target_embs
  padding := padsOf targets
  misc := CreateTargetInfoMisc targets

/-- `AsrDecoderBase._ApplyDropout`: identity in eval mode or at
`dropout_prob = 0`; otherwise the step-seeded `DeterministicDropout`
kernel when `deterministic` is set, and the nondeterministic
`tf.nn.dropout` stream when it is not. -/
def applyDropout (M : Model) (p : Params) (deterministic : Bool) (extraSeed : Nat)
    (ss : StepState) (x : V) : V :=
  if p.is_eval ∨ p.dropout_prob = 0 then x
  else if deterministic then M.drop extraSeed ss x
  else M.dropNondet extraSeed ss x

/-- `_ApplyDropout` as applied to the whole `target_embs` tensor (no step
state; position-indexed oracle). -/
def applyEmbDropout (M : Model) (p : Params) (t : Nat) (x : V) : V :=
  if p.is_eval ∨ p.dropout_prob = 0 then x else M.embDrop t x

/-- Embedding lookup plus dropout for the whole target sequence
(`emb.EmbLookup` then `_ApplyDropout`), with the explicit token position
threaded for the dropout oracle. -/
def embedAll (M : Model) (p : Params) : Nat → List Int → List V
  | _, [] => []
  | t, i :: rest => applyEmbDropout M p t (M.embLookup i) :: embedAll M p (t + 1) rest

/-! ## The single-step transition (`AsrDecoder.SingleDecodeStep`) -/

/-- The layer loop of `AsrDecoder.SingleDecodeStep` over
`self.rnn_cell[1:]` (enumerated from 1): each cell consumes
`act=[rnn_out, new_atten_context]`, its output is dropped out with extra
seed `i * 1000`, and the running output is residual-summed when
`i + 1 >= residual_start > 0`.  Arguments after the fixed context:
current layer index, remaining layer count, running `rnn_out`, new states
accumulated so far.  `det` is the caller's `use_deterministic_random`,
forwarded to `_ApplyDropout`. -/
def rnnLoop (M : Model) (p : Params) (det : Bool) (ss : StepState) (pad ctx : V)
    (prev : Nat → M.RnnState) : Nat → Nat → V → (Nat → M.RnnState) → V × (Nat → M.RnnState)
  | _, 0, acc, ns => (acc, ns)
  | i, k + 1, acc, ns =>
      let s := M.cellFProp i (prev i) acc ctx pad
      let o := applyDropout M p det i ss (M.cellGetOutput i s)
      let acc2 := if p.residual_start ≤ i + 1 ∧ 0 < p.residual_start then vadd acc o else o
      rnnLoop M p det ss pad ctx prev (i + 1) k acc2 (fun j => if j = i then s else ns j)

/-- `AsrDecoder.SingleDecodeStep`: layer-0 cell on
`act=[emb, atten_context]`, attention query from the layer-0 output,
contextualizer hook, the layer loop, and the step output
`tf.concat([rnn_out, new_atten_context], 1)`.  `misc_states` is returned
unchanged.  `det` is the `use_deterministic_random` argument of the
source (default `False`; the functional recurrent passes `True`). -/
def SingleDecodeStep (M : Model) (p : Params) (packed : M.PackedSrc)
    (cur : TargetInfo) (st : CoreState M) (det : Bool) : V × CoreState M :=
  let s0 := M.cellFProp 0 (st.rnn_states 0) cur.emb st.atten_context cur.padding
  let o0 := M.cellGetOutput 0 s0
  let a := M.attenCompute packed o0 st.atten_states st.misc_states.step_state
  let ctx := M.queryAttention o0 a.1
  let lp := rnnLoop M p det st.misc_states.step_state cur.padding ctx st.rnn_states
    1 (p.rnn_layers - 1) o0 (fun j => if j = 0 then s0 else st.rnn_states j)
  (lp.1 ++ ctx,
   { rnn_states := lp.2
     atten_context := ctx
     atten_probs := a.2.1
     atten_states := a.2.2
     misc_states := st.misc_states })

/-! ## Per-step target selection and post-step state update -/

/-- `AsrDecoderBase.TargetsToBeFedAtCurrentDecodeStep`: reads the buffer at
`time` with an empty `misc`; when `_max_label_prob > 0` the id and
embedding are replaced by the previous prediction unless the per-example
uniform draw (`tf.random_uniform`, range `[0, 1)`) falls below
`groundtruth_p`. -/
def TargetsToBeFedAtCurrentDecodeStep (M : Model) (p : Params) (time : Nat)
    (misc : MiscStates) (tas : TargetInfoTas) (uniform : ℚ) : TargetInfo :=
  let target_id := tas.id.getD time 0
  let label := tas.label.getD time 0
  let weight := tas.weight.getD time 0
  let emb := tas.emb.getD time []
  let padding := tas.padding.getD time []
  if maxLabelProb p > 0 then
    let pick_groundtruth := uniform < misc.groundtruth_p.getD 0
    let emb2 := if pick_groundtruth then tas.emb.getD time []
      else M.embLookup (misc.prev_predicted_ids.getD 0)
    let target_id2 := if pick_groundtruth then tas.id.getD time 0
      else misc.prev_predicted_ids.getD 0
    { id := target_id2, label := label, weight := weight, emb := emb2
      padding := padding, misc := [] }
  else
    { id := target_id, label := label, weight := weight, emb := emb
      padding := padding, misc := [] }

/-- `AsrDecoderBase.OverrideEmbedding`. -/
def OverrideEmbedding (target_info : TargetInfo) (new_emb : V) : TargetInfo :=
  { target_info with emb := new_emb }

/-- The unconditional `time_step += 1` at the end of
`PostStepDecoderStateUpdate`. -/
def bumpMisc (m : MiscStates) : MiscStates :=
  { m with step_state := { m.step_state with time_step := m.step_state.time_step + 1 } }

/-- `AsrDecoderBase.PostStepDecoderStateUpdate`, acting on the decoder step
state (only `misc_states` and the dynamically attached `logits` field are
touched; other state fields pass through unchanged at the call sites).
Returns `(new misc_states, logits field)`.  `sampler` models the
`tf.multinomial` draw from `log_softmax(logits)`. -/
def PostStepDecoderStateUpdate (p : Params) (sampler : V → Int)
    (misc : MiscStates) (logits : Option V) : Except String (MiscStates × Option V) :=
  let step1 : Except String (MiscStates × Option V) :=
    if ¬ p.use_while_loop_based_unrolling then
      if p.min_ground_truth_prob < 1 then Except.error "SS is not yet supported"
      else Except.ok (misc, none)
    else
      match logits with
      | none => Except.error "logits cannot be None"
      | some l =>
          if maxLabelProb p > 0 then
            Except.ok ({ misc with prev_predicted_ids := some (sampler l) }, some l)
          else Except.ok (misc, some l)
  match step1 with
  | Except.error e => Except.error e
  | Except.ok (m, l) => Except.ok (bumpMisc m, l)

/-! ## Zero-state initialization -/

/-- `AsrDecoderBase.BaseZeroState`: per-layer RNN zero states, packed
source, zero attention state, a zero-query attention context pass, and
the contextualizer zero-attention hook.  Returns
`(rnn_states, atten_context, atten_probs, atten_states, packed_src)`. -/
def BaseZeroState (M : Model) (src : M.Source) (misc : MiscStates) :
    (Nat → M.RnnState) × V × V × M.AttenState × M.PackedSrc :=
  let rnn_states : Nat → M.RnnState := fun i => M.cellZeroState i
  let packed := M.initForSourcePacked src
  let zero_atten_state := M.zeroAttentionState src
  let a := M.attenCompute packed M.zeroQuery zero_atten_state misc.step_state
  let atten_context := M.contextualizerZero a.1
  (rnn_states, atten_context, a.2.1, a.2.2, packed)

/-- `AsrDecoderBase.DecoderStepZeroState`: misc zero state, base zero
state, and the fusion zero state, assembled into the initial decoder step
state (core part and fusion part) plus the packed source. -/
def DecoderStepZeroState (M : Model) (p : Params) (global_step : Int)
    (src : M.Source) (target_ids : List Int) : CoreState M × M.FState × M.PackedSrc :=
  let misc := MiscZeroState p global_step target_ids
  let b := BaseZeroState M src misc
  ({ rnn_states := b.1
     atten_context := b.2.1
     atten_probs := b.2.2.1
     atten_states := b.2.2.2.1
     misc_states := misc },
   M.fusionZeroState,
   b.2.2.2.2)

/-! ## The graph-loop unroller (`ComputePredictionsDynamic`) -/

/-- The body and loop of `ComputePredictionsDynamic`'s `tf.while_loop`
(`_LoopBody`), returning the per-step final `logits` slices in time
order: per step, target selection, per-step `FPropLm`, `FuseEmb`,
`SingleDecodeStep`, `FuseOutput`, softmax logits, post-step state update
(which stores `logits` on the state), and the LM logit adjustment that is
written into the output buffer.  `uniform` supplies the per-step
scheduled-sampling draws. -/
def dynLoop (M : Model) (p : Params) (sampler : V → Int) (uniform : Nat → ℚ)
    (packed : M.PackedSrc) (tas : TargetInfoTas) :
    Nat → Nat → CoreState M → M.FState → Except String (List V)
  | 0, _, _, _ => Except.ok []
  | n + 1, t, core, fus =>
      let cur0 := TargetsToBeFedAtCurrentDecodeStep M p t core.misc_states tas (uniform t)
      let lm := M.fPropLm fus cur0.id cur0.padding
      let cur := OverrideEmbedding cur0 (M.fuseEmb lm.1 cur0.emb)
      let step := SingleDecodeStep M p packed cur core false
      let step_outs := M.fuseOutput lm.1 step.1
      let logits := M.softmaxLogits step_outs
      match PostStepDecoderStateUpdate p sampler step.2.misc_states (some logits) with
      | Except.error e => Except.error e
      | Except.ok (misc2, stored) =>
          match stored with
          | none => Except.error "AttributeError: logits"
          | some l =>
              let adjusted := M.computeLogitsWithLM l
              match dynLoop M p sampler uniform packed tas n (t + 1)
                  { step.2 with misc_states := misc2 } lm.2 with
              | Except.error e => Except.error e
              | Except.ok rest => Except.ok (adjusted :: rest)

/-- `AsrDecoderBase.ComputePredictionsDynamic`: embed-and-dropout the
target sequence, build the `TargetInfo` buffers, compute the zero state,
and run the while loop for `max_seq_length` steps.  The result is the
time-ordered list of final per-step `logits` (the `logits` output tensor
before the batch-major transpose, which only changes layout). -/
def ComputePredictionsDynamic (M : Model) (p : Params) (global_step : Int)
    (sampler : V → Int) (uniform : Nat → ℚ) (src : M.Source) (targets : Targets) :
    Except String (List V) :=
  let target_embs := embedAll M p 0 targets.ids
  let tas := GetInitialTargetInfo targets target_embs
  let z := DecoderStepZeroState M p global_step src targets.ids
  dynLoop M p sampler uniform z.2.2 tas targets.ids.length 0 z.1 z.2.1

/-! ## The function-based unroller (`ComputePredictionsFunctional`) -/

/-- Modelled from the spec: the sequence-level `fusion.FPropLm` call made
by `ComputePredictionsFunctional` on the whole `[time, batch]` id/padding
tensors.  Per the fusion contract (spec section 6) the fusion state is the
fused LM state threaded through time, so the sequence version is the
per-step `fPropLm` mapped over time with its state accumulated. -/
def seqFPropLm (M : Model) : M.FState → List (Int × V) → List V × M.FState
  | fus, [] => ([], fus)
  | fus, (i, pad) :: rest =>
      let o := M.fPropLm fus i pad
      let os := seqFPropLm M o.2 rest
      (o.1 :: os.1, os.2)

/-- The scan driven by `recurrent.Recurrent` in
`ComputePredictionsFunctional` (`RnnStep`): per step, `SingleDecodeStep`
on the precomputed (fused) inputs followed by `PostStepDecoderStateUpdate`
(called with `inputs.label` in the `logits` argument).  Returns the
accumulated `step_outs` slices in time order. -/
def funcScan (M : Model) (p : Params) (sampler : V → Int) (packed : M.PackedSrc)
    (inp : Nat → TargetInfo) : Nat → Nat → CoreState M → Except String (List V)
  | 0, _, _ => Except.ok []
  | n + 1, t, core =>
      let cur := inp t
      let step := SingleDecodeStep M p packed cur core true
      match PostStepDecoderStateUpdate p sampler step.2.misc_states
          (some [(cur.label : ℚ)]) with
      | Except.error e => Except.error e
      | Except.ok (misc2, _) =>
          match funcScan M p sampler packed inp n (t + 1)
              { step.2 with misc_states := misc2 } with
          | Except.error e => Except.error e
          | Except.ok rest => Except.ok (step.1 :: rest)

/-- The per-step slices of the (fused) `inputs` NestedMap that
`recurrent.Recurrent` feeds to `RnnStep` in
`ComputePredictionsFunctional` (the per-step misc slice is empty; the
base-class `SingleDecodeStep` ignores `misc`). -/
def funcInputs (targets : Targets) (fused_embs : List V) : Nat → TargetInfo :=
  fun t =>
    { id := targets.ids.getD t 0
      label := targets.labels.getD t 0
      weight := targets.weights.getD t 0
      emb := fused_embs.getD t []
      padding := (padsOf targets).getD t []
      misc := [] }

/-- `AsrDecoderBase.ComputePredictionsFunctional`: asserts scheduled
sampling is disabled, embeds the whole target sequence, runs the
sequence-level `FPropLm`/`FuseEmb` once outside the loop, scans
`SingleDecodeStep` over time, optionally strips the attention context
from the step outputs, and applies `FuseOutput`, the softmax and
`ComputeLogitsWithLM` once over the accumulated step outputs.  The result
is the time-ordered list of final per-step `logits` slices (the `logits`
output before the batch-major transpose). -/
def ComputePredictionsFunctional (M : Model) (p : Params) (global_step : Int)
    (sampler : V → Int) (src : M.Source) (targets : Targets) : Except String (List V) :=
  if p.min_ground_truth_prob = 1 then
    let T := targets.ids.length
    let z := DecoderStepZeroState M p global_step src targets.ids
    let target_embs := embedAll M p 0 targets.ids
    let lm := seqFPropLm M z.2.1 (targets.ids.zip (padsOf targets))
    let fused_embs := List.zipWith M.fuseEmb lm.1 target_embs
    match funcScan M p sampler z.2.2 (funcInputs targets fused_embs) T 0 z.1 with
    | Except.error e => Except.error e
    | Except.ok step_outs =>
        let step_outs2 := if p.softmax_uses_attention then step_outs
          else step_outs.map (List.take p.rnn_cell_dim)
        Except.ok ((List.range T).map (fun t =>
          M.computeLogitsWithLM (M.softmaxLogits
            (M.fuseOutput (lm.1.getD t []) (step_outs2.getD t [])))))
  else Except.error "assert failed: p.min_ground_truth_prob == 1.0"

/-! ## Beam-search pre-step callback (`AsrDecoder._PreBeamSearchStepCallback`) -/

/-- The `bs_results` NestedMap returned by the pre-step callback. -/
structure BSResults where
  atten_probs : V
  log_probs : V

/-- The fusion-adjusted logits computed by
`AsrDecoder._PreBeamSearchStepCallback` before the `log_probs` selection:
embedding lookup for the fed step id, per-step `FPropLm` and `FuseEmb`,
`SingleDecodeStep` against the freshly packed source, the optional
attention-context strip, `FuseOutput`, the softmax (`XentLoss`) logits and
`ComputeLogitsWithLM`. -/
def preStepAdjustedLogits (M : Model) (p : Params) (src : M.Source)
    (step_id : Int) (core : CoreState M) (fus : M.FState) : V :=
  let step_padding : V := [0]
  let emb := M.embLookup step_id
  let lm := M.fPropLm fus step_id step_padding
  let cur : TargetInfo :=
    { id := step_id, label := step_id, weight := 1
      emb := M.fuseEmb lm.1 emb, padding := step_padding, misc := [] }
  let packed := M.initForSourcePacked src
  let step := SingleDecodeStep M p packed cur core false
  let softmax_input := if p.softmax_uses_attention then step.1
    else step.1.take p.rnn_cell_dim
  let softmax_input2 := M.fuseOutput lm.1 softmax_input
  M.computeLogitsWithLM (M.softmaxLogits softmax_input2)

/-- `AsrDecoder._PreBeamSearchStepCallback` (value part): the full
pipeline of the callback, returning the `bs_results` for the fed step id.
The new opaque state is the `SingleDecodeStep` result state; only the
results map matters for the verified property. -/
def PreBeamSearchStepCallback (M : Model) (p : Params) (src : M.Source)
    (step_id : Int) (core : CoreState M) (fus : M.FState) : BSResults × CoreState M :=
  let step_padding : V := [0]
  let emb := M.embLookup step_id
  let lm := M.fPropLm fus step_id step_padding
  let cur : TargetInfo :=
    { id := step_id, label := step_id, weight := 1
      emb := M.fuseEmb lm.1 emb, padding := step_padding, misc := [] }
  let packed := M.initForSourcePacked src
  let step := SingleDecodeStep M p packed cur core false
  let softmax_input := if p.softmax_uses_attention then step.1
    else step.1.take p.rnn_cell_dim
  let softmax_input2 := M.fuseOutput lm.1 softmax_input
  let logits := M.computeLogitsWithLM (M.softmaxLogits softmax_input2)
  let log_probs := if p.use_unnormalized_logits_as_log_probs then logits
    else M.logSoftmax logits
  ({ atten_probs := step.2.atten_probs, log_probs := log_probs }, step.2)

/-! ## Concrete instances used to evaluate the verified properties -/

/-- `Except.isOk` specialised to the unroller result type. -/
def unrollOk : Except String (List V) → Bool
  | Except.ok _ => true
  | Except.error _ => false

/-- A small concrete collaborator assembly exercising state threading:
the attention result depends on the step state, the fused LM is stateful,
and the dropout oracles are nontrivial. -/
def Mex : Model where
  RnnState := V
  AttenState := V
  FState := ℚ
  PackedSrc := V
  Source := V
  cellZeroState := fun i => [(i : ℚ)]
  cellFProp := fun i st a b pad =>
    [(i : ℚ) + 1 + st.sum / 2 + a.sum + b.sum / 3 + pad.sum / 5]
  cellGetOutput := fun _ st => st
  initForSourcePacked := fun s => s
  zeroAttentionState := fun s => s.map (fun x => x + 1)
  attenCompute := fun packed q ast ss =>
    ([packed.sum + q.sum + (ss.time_step : ℚ) / 7], [q.sum / 2], vadd ast q)
  contextualizerZero := fun c => c
  queryAttention := fun o c => [o.sum / 4 + c.sum]
  zeroQuery := [0]
  embLookup := fun i => [(i : ℚ) / 3]
  drop := fun i ss v => v.map (fun x => x / ((i : ℚ) + 2) + (ss.time_step : ℚ))
  dropNondet := fun i ss v => v.map (fun x => x * ((i : ℚ) + 3) - (ss.time_step : ℚ))
  embDrop := fun t v => v.map (fun x => x / ((t : ℚ) + 2))
  softmaxLogits := fun v => v.map (fun x => 3 * x) ++ [v.sum]
  logSoftmax := fun v => v.map (fun x => x - 7)
  fusionZeroState := 0
  fPropLm := fun f i pad => ([f + (i : ℚ) + pad.sum], f + 1)
  fuseEmb := fun lm e => vadd lm e
  fuseOutput := fun lm o => o ++ lm
  computeLogitsWithLM := fun l => l.map (fun x => x + 5)

/-- Concrete params with two layers and dropout disabled (the unrollers
only agree when dropout is inert), scheduled sampling disabled. -/
def pW : Params :=
  { defaultParams with dropout_prob := 0, rnn_layers := 2, residual_start := 1 }

/-- Concrete params with scheduled sampling active. -/
def pSS : Params := { defaultParams with min_ground_truth_prob := 1/2 }

/-- Concrete params with scheduled sampling active and the function-based
unrolling strategy selected. -/
def pSSFunc : Params :=
  { defaultParams with
      min_ground_truth_prob := 1/2, use_while_loop_based_unrolling := false }

/-- A concrete target batch (one example, two steps). -/
def targetsEx : Targets where
  ids := [3, 1]
  labels := [1, 2]
  weights := [1, 1]
  paddings := [0, 1]
  fst_bias_probs := none

/-- An unused `tf.multinomial` oracle. -/
def samplerEx : V → Int := fun _ => 7

/-- An unused scheduled-sampling uniform-draw oracle. -/
def uniformEx : Nat → ℚ := fun _ => 1/2

/-- A concrete `misc_states` with `groundtruth_p` exactly 1 while
scheduled sampling is active. -/
def miscTF : MiscStates where
  step_state := { global_step := 4, time_step := 2 }
  prev_predicted_ids := some 9
  groundtruth_p := some 1

/-- A concrete target-info buffer. -/
def tasTF : TargetInfoTas where
  id := [5, 6]
  label := [6, 7]
  weight := [1, 1]
  emb := [[2], [3]]
  padding := [[0], [0]]
  misc := []

/-- Trivial collaborators for the residual-connection counterexample:
every cell outputs `[layer index + 1]`, attention context is `[10]`, and
dropout halves its input. -/
def Mc6 : Model where
  RnnState := V
  AttenState := V
  FState := ℚ
  PackedSrc := V
  Source := V
  cellZeroState := fun _ => [0]
  cellFProp := fun i _ _ _ _ => [(i : ℚ) + 1]
  cellGetOutput := fun _ st => st
  initForSourcePacked := fun s => s
  zeroAttentionState := fun s => s
  attenCompute := fun _ _ ast _ => ([10], [0], ast)
  contextualizerZero := fun c => c
  queryAttention := fun _ c => c
  zeroQuery := [0]
  embLookup := fun _ => [0]
  drop := fun _ _ v => v.map (fun x => x / 2)
  dropNondet := fun _ _ v => v.map (fun x => x / 2)
  embDrop := fun _ v => v
  softmaxLogits := fun v => v
  logSoftmax := fun v => v
  fusionZeroState := 0
  fPropLm := fun f _ _ => ([0], f)
  fuseEmb := fun _ e => e
  fuseOutput := fun _ o => o
  computeLogitsWithLM := fun l => l

/-- Three layers, residual connections from layer 2 (1-indexed), active
dropout. -/
def pC6 : Params :=
  { defaultParams with rnn_layers := 3, residual_start := 2, dropout_prob := 1/2 }

/-- Concrete decoder step state for the residual counterexample. -/
def coreC6 : CoreState Mc6 where
  rnn_states := fun _ => [0]
  atten_context := [0]
  atten_probs := [0]
  atten_states := [0]
  misc_states := MiscZeroState pC6 0 [0]

/-- Concrete per-step target info for the residual counterexample. -/
def curC6 : TargetInfo where
  id := 0
  label := 0
  weight := 1
  emb := [1]
  padding := [0]
  misc := []

/-- Step state fed to dropout in the residual counterexample. -/
def ssC6 : StepState := (MiscZeroState pC6 0 [0]).step_state

/-- Layer-1 (first layer) output in the residual counterexample. -/
def o0C6 : V :=
  Mc6.cellGetOutput 0
    (Mc6.cellFProp 0 (coreC6.rnn_states 0) curC6.emb coreC6.atten_context curC6.padding)

/-- New attention context in the residual counterexample. -/
def ctxC6 : V :=
  Mc6.queryAttention o0C6 (Mc6.attenCompute [0] o0C6 coreC6.atten_states ssC6).1

/-- Layer-2 raw cell output in the residual counterexample. -/
def rawOut1C6 : V :=
  Mc6.cellGetOutput 1 (Mc6.cellFProp 1 (coreC6.rnn_states 1) o0C6 ctxC6 curC6.padding)

/-- Layer-2 dropped-out cell output in the residual counterexample
(graph-loop call, `use_deterministic_random=False`). -/
def dropOut1C6 : V := applyDropout Mc6 pC6 false 1 ssC6 rawOut1C6

/-- Layer-3 raw cell output (before its own dropout) in the residual
counterexample; its cell input is the running layer-2 output. -/
def rawOut2C6 : V :=
  Mc6.cellGetOutput 2
    (Mc6.cellFProp 2 (coreC6.rnn_states 2) (vadd o0C6 dropOut1C6) ctxC6 curC6.padding)

/-- Collaborators for the dropout-divergence counterexample: the
deterministic dropout kernel is the identity while the nondeterministic
`tf.nn.dropout` stream doubles its input (two unrelated random
mechanisms drawing different masks). -/
def Mcd : Model where
  RnnState := V
  AttenState := V
  FState := ℚ
  PackedSrc := V
  Source := V
  cellZeroState := fun _ => [0]
  cellFProp := fun i _ _ _ _ => [(i : ℚ) + 1]
  cellGetOutput := fun _ st => st
  initForSourcePacked := fun s => s
  zeroAttentionState := fun s => s
  attenCompute := fun _ _ ast _ => ([10], [0], ast)
  contextualizerZero := fun c => c
  queryAttention := fun _ c => c
  zeroQuery := [0]
  embLookup := fun _ => [0]
  drop := fun _ _ v => v
  dropNondet := fun _ _ v => v.map (fun x => x * 2)
  embDrop := fun _ v => v
  softmaxLogits := fun v => v
  logSoftmax := fun v => v
  fusionZeroState := 0
  fPropLm := fun f _ _ => ([0], f)
  fuseEmb := fun _ e => e
  fuseOutput := fun _ o => o
  computeLogitsWithLM := fun l => l

/-- Two layers with active dropout in training mode, scheduled sampling
disabled: the configuration on which the two unrollers draw dropout
masks from different mechanisms. -/
def pCd : Params := { defaultParams with rnn_layers := 2, dropout_prob := 1/2 }

/-- A one-step target batch for the dropout-divergence counterexample. -/
def targetsCd : Targets where
  ids := [0]
  labels := [0]
  weights := [1]
  paddings := [0]
  fst_bias_probs := none

/-- The fused-LM state after `t` per-step `FPropLm` calls on the target
sequence: the state threading performed by the graph-loop unroller, used
to relate it to the sequence-level `seqFPropLm` call of the functional
unroller. -/
def lmStateAt (M : Model) (ids : List Int) (pads : List V) (fus0 : M.FState) : Nat → M.FState
  | 0 => fus0
  | t + 1 => (M.fPropLm (lmStateAt M ids pads fus0 t) (ids.getD t 0) (pads.getD t [])).2

/-- The per-step LM output at step `t` under that threading. -/
def lmOutAt (M : Model) (ids : List Int) (pads : List V) (fus0 : M.FState) (t : Nat) : V :=
  (M.fPropLm (lmStateAt M ids pads fus0 t) (ids.getD t 0) (pads.getD t [])).1

/-- Reference recursion for the functional unroller with the
post-scan fusion/softmax/LM-adjustment folded back into the loop (the
per-step shape shared with the graph-loop unroller).  Used as the common
intermediate form between `dynLoop` and `funcScan`. -/
def funcFused (M : Model) (p : Params) (sampler : V → Int) (packed : M.PackedSrc)
    (inp : Nat → TargetInfo) (lmOut : Nat → V) (det : Bool) :
    Nat → Nat → CoreState M → Except String (List V)
  | 0, _, _ => Except.ok []
  | n + 1, t, core =>
      let cur := inp t
      let step := SingleDecodeStep M p packed cur core det
      match PostStepDecoderStateUpdate p sampler step.2.misc_states
          (some [(cur.label : ℚ)]) with
      | Except.error e => Except.error e
      | Except.ok (misc2, _) =>
          match funcFused M p sampler packed inp lmOut det n (t + 1)
              { step.2 with misc_states := misc2 } with
          | Except.error e => Except.error e
          | Except.ok rest =>
              Except.ok (M.computeLogitsWithLM (M.softmaxLogits
                (M.fuseOutput (lmOut t) step.1)) :: rest)

/-- Decidable equality for `Except` results (used to evaluate the
verified properties on concrete inputs). -/
instance {e a : Type} [DecidableEq e] [DecidableEq a] : DecidableEq (Except e a) := fun x y =>
  match x, y with
  | Except.ok v, Except.ok w =>
      if h : v = w then isTrue (by rw [h]) else isFalse (by intro hc; cases hc; exact h rfl)
  | Except.ok _, Except.error _ => isFalse (by intro hc; cases hc)
  | Except.error _, Except.ok _ => isFalse (by intro hc; cases hc)
  | Except.error v, Except.error w =>
      if h : v = w then isTrue (by rw [h]) else isFalse (by intro hc; cases hc; exact h rfl)

/-! ## Theorems -/

/-- Claim C3: the ground-truth sampling probability computed by
`MiscZeroState` is monotonically non-increasing in the global step,
bounded below by `min_ground_truth_prob`, and equals exactly 1 for every
step at or before `prob_decay_start_step`.  The hypotheses are the
probability bound on the configuration value and the
`min_prob_step > prob_decay_start_step` constraint enforced by
`__init__`. -/
theorem groundtruth_p_schedule (p : Params)
    (hp1 : p.min_ground_truth_prob ≤ 1)
    (hI : p.prob_decay_start_step < p.min_prob_step) :
    (∀ s t : ℚ, s ≤ t → groundtruthP p t ≤ groundtruthP p s) ∧
    (∀ s : ℚ, p.min_ground_truth_prob ≤ groundtruthP p s) ∧
    (∀ s : ℚ, s ≤ p.prob_decay_start_step → groundtruthP p s = 1) := by
  have hIpos : 0 < decayInterval p := by
    simp only [decayInterval]; linarith
  have hm : 0 ≤ maxLabelProb p := by
    simp only [maxLabelProb]; linarith
  refine ⟨?_, ?_, ?_⟩
  · intro s t hst
    simp only [groundtruthP]
    gcongr
  · intro s
    simp only [groundtruthP]
    exact le_min (le_max_right _ _) hp1
  · intro s hs
    simp only [groundtruthP]
    have hx : (s - p.prob_decay_start_step) / decayInterval p ≤ 0 :=
      div_nonpos_of_nonpos_of_nonneg (by linarith) hIpos.le
    have hg : (1 : ℚ) ≤ 1 - maxLabelProb p * ((s - p.prob_decay_start_step) / decayInterval p) := by
      nlinarith
    exact min_eq_right (le_trans hg (le_max_left _ _))

/-- Witness for C3 at a concrete scheduled-sampling configuration:
at step 5000 (before the decay start at 10000) the probability is 1. -/
theorem groundtruth_p_schedule_witness : groundtruthP pSS 5000 = 1 :=
  (groundtruth_p_schedule pSS (by norm_num [pSS, defaultParams])
    (by norm_num [pSS, defaultParams])).2.2 5000 (by norm_num [pSS, defaultParams])

/-- Claim C7: whenever `groundtruth_p` is exactly 1,
`TargetsToBeFedAtCurrentDecodeStep` returns the ground-truth id and
embedding regardless of the uniform draw (which `tf.random_uniform`
guarantees to lie in `[0, 1)`). -/
theorem teacher_forcing_prob_one (M : Model) (p : Params) (time : Nat)
    (misc : MiscStates) (tas : TargetInfoTas) (u : ℚ)
    (hgp : misc.groundtruth_p = some 1) (hu : u < 1) :
    (TargetsToBeFedAtCurrentDecodeStep M p time misc tas u).id = tas.id.getD time 0 ∧
    (TargetsToBeFedAtCurrentDecodeStep M p time misc tas u).emb = tas.emb.getD time [] := by
  unfold TargetsToBeFedAtCurrentDecodeStep
  by_cases h : maxLabelProb p > 0 <;> simp [h, hgp, hu]

/-- Witness for C7: scheduled sampling active, draw 3/4, probability 1;
the buffer values at step 0 are selected. -/
theorem teacher_forcing_prob_one_witness :
    (TargetsToBeFedAtCurrentDecodeStep Mex pSS 0 miscTF tasTF (3/4)).id = tasTF.id.getD 0 0 ∧
    (TargetsToBeFedAtCurrentDecodeStep Mex pSS 0 miscTF tasTF (3/4)).emb = tasTF.emb.getD 0 [] :=
  teacher_forcing_prob_one Mex pSS 0 miscTF tasTF (3/4) rfl (by norm_num)

/-- Claim C9: the `TargetInfo` returned by the base-class
`TargetsToBeFedAtCurrentDecodeStep` always carries an empty `misc`
NestedMap, even though `CreateTargetInfoMisc` can store `fst_bias_probs`
in the buffer built by `_GetInitialTargetInfo`: the buffer misc is never
propagated to the per-step input. -/
theorem target_info_misc_not_propagated (M : Model) (p : Params) (time : Nat)
    (misc : MiscStates) (targets : Targets) (target_embs : List V) (u : ℚ) (b : V) :
    (TargetsToBeFedAtCurrentDecodeStep M p time misc
        (GetInitialTargetInfo { targets with fst_bias_probs := some b } target_embs) u).misc = [] ∧
    (GetInitialTargetInfo { targets with fst_bias_probs := some b } target_embs).misc
      = [("fst_bias_probs", b)] := by
  constructor
  · unfold TargetsToBeFedAtCurrentDecodeStep
    by_cases h : maxLabelProb p > 0 <;> simp [h]
  · rfl

/-- Claim C8: the `log_probs` field returned by the beam-search pre-step
callback is the raw fusion-adjusted logits when
`use_unnormalized_logits_as_log_probs` is set and their log-softmax
otherwise, and the flag defaults to true. -/
theorem beam_search_log_probs_flag (M : Model) (p : Params) (src : M.Source)
    (step_id : Int) (core : CoreState M) (fus : M.FState) :
    (PreBeamSearchStepCallback M p src step_id core fus).1.log_probs
      = (if p.use_unnormalized_logits_as_log_probs
          then preStepAdjustedLogits M p src step_id core fus
          else M.logSoftmax (preStepAdjustedLogits M p src step_id core fus)) ∧
    defaultParams.use_unnormalized_logits_as_log_probs = true :=
  ⟨rfl, rfl⟩

/-- Claim C4: `PostStepDecoderStateUpdate` raises exactly when the
function-based unroller is configured together with scheduled sampling,
or when the graph-loop unroller is configured and `logits` is omitted;
in every non-raising case `time_step` is incremented by exactly 1. -/
theorem post_step_update_contract (p : Params) (sampler : V → Int)
    (misc : MiscStates) (logits : Option V) :
    ((∃ e, PostStepDecoderStateUpdate p sampler misc logits = Except.error e) ↔
      ((p.use_while_loop_based_unrolling = false ∧ p.min_ground_truth_prob < 1) ∨
       (p.use_while_loop_based_unrolling = true ∧ logits = none))) ∧
    (∀ misc2 l2, PostStepDecoderStateUpdate p sampler misc logits = Except.ok (misc2, l2) →
      misc2.step_state.time_step = misc.step_state.time_step + 1) := by
  unfold PostStepDecoderStateUpdate
  cases hb : p.use_while_loop_based_unrolling with
  | false => by_cases hlt : p.min_ground_truth_prob < 1 <;> simp [hlt, bumpMisc]
  | true =>
      cases logits with
      | none => simp
      | some l => by_cases hmlp : maxLabelProb p > 0 <;> simp [hmlp, bumpMisc]

/-- Witness for C4: default (graph-loop) configuration, logits supplied;
the update succeeds and bumps `time_step` from 2 to 3. -/
theorem post_step_update_contract_witness :
    ({ step_state := { global_step := 4, time_step := 3 }, prev_predicted_ids := some 9,
       groundtruth_p := some 1 } : MiscStates).step_state.time_step
      = miscTF.step_state.time_step + 1 :=
  (post_step_update_contract defaultParams samplerEx miscTF (some [1])).2
    { step_state := { global_step := 4, time_step := 3 }, prev_predicted_ids := some 9,
      groundtruth_p := some 1 } (some [1])
    (by norm_num [PostStepDecoderStateUpdate, defaultParams, maxLabelProb, miscTF, bumpMisc])

/-- Claim C2: with `per_token_avg_loss = True`, the `loss` metric of
`_ComputeMetrics` equals `sum(per_example_loss * weight)` over all
`(batch, time)` positions divided by `sum(weight) + 1e-6`; the whole
computation is a function of its inputs (no sampling is involved). -/
theorem per_token_avg_loss_formula (p : Params) (use_tpu : Bool)
    (xentSparse : List ℚ → Int → ℚ) (xentDist : List ℚ → List ℚ → ℚ)
    (logits : List (List (List ℚ))) (target_labels : List (List Int))
    (target_weights : List (List ℚ)) (target_probs : Option (List (List (List ℚ))))
    (h : p.per_token_avg_loss = true) :
    (ComputeMetrics p use_tpu xentSparse xentDist logits target_labels target_weights
        target_probs).1.loss.1
      = ((List.zipWith (List.zipWith (· * ·))
            (perExampleLoss xentSparse xentDist logits target_labels target_probs)
            target_weights).flatten).sum
        / (target_weights.flatten.sum + 1 / 1000000) := by
  simp only [ComputeMetrics, h, if_true]
  simp only [List.sum_flatten, List.map_zipWith]

/-- Witness for C2 at a concrete 2-by-2 batch with vocab 2 and a concrete
sparse cross-entropy kernel. -/
theorem per_token_avg_loss_formula_witness :
    (ComputeMetrics defaultParams false (fun l i => l.sum + (i : ℚ)) (fun l t => l.sum * t.sum)
        [[[1, 2], [3, 4]], [[5, 6], [7, 8]]] [[0, 1], [1, 0]] [[1, 1/2], [0, 2]]
        none).1.loss.1
      = ((List.zipWith (List.zipWith (· * ·))
            (perExampleLoss (fun l i => l.sum + (i : ℚ)) (fun l t => l.sum * t.sum)
              [[[1, 2], [3, 4]], [[5, 6], [7, 8]]] [[0, 1], [1, 0]] none)
            [[1, 1/2], [0, 2]]).flatten).sum
        / (([[1, 1/2], [0, 2]] : List (List ℚ)).flatten.sum + 1 / 1000000) :=
  per_token_avg_loss_formula defaultParams false (fun l i => l.sum + (i : ℚ))
    (fun l t => l.sum * t.sum) [[[1, 2], [3, 4]], [[5, 6], [7, 8]]] [[0, 1], [1, 0]]
    [[1, 1/2], [0, 2]] none rfl

/-- The layer loop treats `residual_start = 1` and `residual_start = 2`
identically from any layer index at least 1 (the loop never revisits
layer 0). -/
theorem rnnLoop_residual_one_eq_two (M : Model) (p : Params) (det : Bool)
    (ss : StepState) (pad ctx : V) (prev : Nat → M.RnnState) (k i : Nat) (acc : V)
    (ns : Nat → M.RnnState) (h : 1 ≤ i) :
    rnnLoop M { p with residual_start := 1 } det ss pad ctx prev i k acc ns
      = rnnLoop M { p with residual_start := 2 } det ss pad ctx prev i k acc ns := by
  induction k generalizing i acc ns with
  | zero => rfl
  | succ k ih =>
      simp only [rnnLoop]
      rw [if_pos (show (1 : Nat) ≤ i + 1 ∧ (0 : Nat) < 1 from ⟨by omega, by omega⟩),
        if_pos (show (2 : Nat) ≤ i + 1 ∧ (0 : Nat) < 2 from ⟨by omega, by omega⟩)]
      exact ih (i + 1) _ _ (by omega)

/-- Claim C10: the first RNN layer is unconditionally excluded from
residual connections in `SingleDecodeStep`: configuring
`residual_start = 1` behaves exactly like `residual_start = 2` on every
input, and with a single layer the step output is the raw layer-0 output
concatenated with the new attention context, with no residual summation,
even at `residual_start = 1`. -/
theorem first_layer_excluded_from_residual (M : Model) (p : Params)
    (packed : M.PackedSrc) (cur : TargetInfo) (st : CoreState M) (det : Bool) :
    SingleDecodeStep M { p with residual_start := 1 } packed cur st det
      = SingleDecodeStep M { p with residual_start := 2 } packed cur st det ∧
    (SingleDecodeStep M { p with rnn_layers := 1, residual_start := 1 } packed cur st det).1
      = M.cellGetOutput 0 (M.cellFProp 0 (st.rnn_states 0) cur.emb st.atten_context cur.padding)
        ++ M.queryAttention
            (M.cellGetOutput 0 (M.cellFProp 0 (st.rnn_states 0) cur.emb st.atten_context cur.padding))
            (M.attenCompute packed
              (M.cellGetOutput 0 (M.cellFProp 0 (st.rnn_states 0) cur.emb st.atten_context cur.padding))
              st.atten_states st.misc_states.step_state).1 := by
  constructor
  · simp only [SingleDecodeStep]
    rw [rnnLoop_residual_one_eq_two M p det st.misc_states.step_state cur.padding _
      st.rnn_states _ 1 _ _ (le_refl 1)]
  · rfl

/-- Claim C6 (counterexample): with `residual_start = 2` and 3 layers,
the step output does not equal "layer-2 dropped-out output plus layer-3
raw (pre-dropout) cell output" under either reading of "layer-2 output"
(the bare dropped-out cell output, or the running layer-2 output
including the residual contribution of layer 1): the code applies
dropout to layer 3's output before the residual sum, and also
residual-sums at layer 2. -/
theorem residual_claim_counterexample :
    (SingleDecodeStep Mc6 pC6 [0] curC6 coreC6 false).1 ≠ vadd dropOut1C6 rawOut2C6 ++ ctxC6 ∧
    (SingleDecodeStep Mc6 pC6 [0] curC6 coreC6 false).1
      ≠ vadd (vadd o0C6 dropOut1C6) rawOut2C6 ++ ctxC6 := by
  have h0 : (SingleDecodeStep Mc6 pC6 [0] curC6 coreC6 false).1 = [7/2, 10] := by
    simp only [SingleDecodeStep, rnnLoop, Mc6, pC6, defaultParams, coreC6, curC6,
      applyDropout, MiscZeroState, maxLabelProb, vadd, groundtruthP, decayInterval]
    norm_num
  have hA : vadd dropOut1C6 rawOut2C6 ++ ctxC6 = [4, 10] := by
    simp only [dropOut1C6, rawOut1C6, rawOut2C6, o0C6, ctxC6, ssC6, applyDropout, vadd,
      Mc6, pC6, defaultParams, coreC6, curC6, MiscZeroState, maxLabelProb]
    norm_num
  have hB : vadd (vadd o0C6 dropOut1C6) rawOut2C6 ++ ctxC6 = [5, 10] := by
    simp only [dropOut1C6, rawOut1C6, rawOut2C6, o0C6, ctxC6, ssC6, applyDropout, vadd,
      Mc6, pC6, defaultParams, coreC6, curC6, MiscZeroState, maxLabelProb]
    norm_num
  rw [h0, hA, hB]
  norm_num

/-- Claim C6 (amended): with `residual_start = 2` and 3 layers, the
layer-3 output is the running layer-2 output (which is itself the
residual sum of the layer-1 output and layer-2's dropped-out cell
output) plus layer-3's dropped-out cell output: dropout is applied
before each residual summation, and the residual connections start at
layer 2. -/
theorem residual_three_layers_structure (M : Model) (p : Params)
    (packed : M.PackedSrc) (cur : TargetInfo) (st : CoreState M) (det : Bool)
    (hL : p.rnn_layers = 3) (hR : p.residual_start = 2) :
    (SingleDecodeStep M p packed cur st det).1 =
      (let s0 := M.cellFProp 0 (st.rnn_states 0) cur.emb st.atten_context cur.padding
       let o0 := M.cellGetOutput 0 s0
       let ctx := M.queryAttention o0
         (M.attenCompute packed o0 st.atten_states st.misc_states.step_state).1
       let r1 := vadd o0 (applyDropout M p det 1 st.misc_states.step_state
         (M.cellGetOutput 1 (M.cellFProp 1 (st.rnn_states 1) o0 ctx cur.padding)))
       let d2 := applyDropout M p det 2 st.misc_states.step_state
         (M.cellGetOutput 2 (M.cellFProp 2 (st.rnn_states 2) r1 ctx cur.padding))
       vadd r1 d2 ++ ctx) := by
  obtain ⟨f1, f2, f3, f4, f5, f6, f7, rs, nl, f10, f11, f12, f13, f14, f15⟩ := p
  simp only at hL hR
  subst hL
  subst hR
  rfl

/-- Witness for the amended C6 at the concrete residual counterexample
inputs. -/
theorem residual_three_layers_structure_witness :
    (SingleDecodeStep Mc6 pC6 [0] curC6 coreC6 false).1 =
      (let s0 := Mc6.cellFProp 0 (coreC6.rnn_states 0) curC6.emb coreC6.atten_context curC6.padding
       let o0 := Mc6.cellGetOutput 0 s0
       let ctx := Mc6.queryAttention o0
         (Mc6.attenCompute [0] o0 coreC6.atten_states coreC6.misc_states.step_state).1
       let r1 := vadd o0 (applyDropout Mc6 pC6 false 1 coreC6.misc_states.step_state
         (Mc6.cellGetOutput 1 (Mc6.cellFProp 1 (coreC6.rnn_states 1) o0 ctx curC6.padding)))
       let d2 := applyDropout Mc6 pC6 false 2 coreC6.misc_states.step_state
         (Mc6.cellGetOutput 2 (Mc6.cellFProp 2 (coreC6.rnn_states 2) r1 ctx curC6.padding))
       vadd r1 d2 ++ ctx) :=
  residual_three_layers_structure Mc6 pC6 [0] curC6 coreC6 false rfl rfl

/-- Claim C5 (counterexample): a configuration with scheduled sampling
active (`min_ground_truth_prob = 1/2 < 1`) and function-based unrolling
selected passes every constructor-time check in `__init__`: construction
succeeds, so the error is not raised at construction time. -/
theorem ss_functional_constructs_without_error :
    initChecks pSSFunc = Except.ok () ∧ pSSFunc.min_ground_truth_prob < 1 ∧
    pSSFunc.use_while_loop_based_unrolling = false := by
  refine ⟨?_, by norm_num [pSSFunc, defaultParams], rfl⟩
  norm_num [initChecks, decayInterval, pSSFunc, defaultParams]

/-- Claim C5 (amended): scheduled sampling together with the
function-based unroller is a fatal error, but it is raised at the first
forward pass (the `min_ground_truth_prob == 1.0` assertion at the top of
`ComputePredictionsFunctional`), not at construction time. -/
theorem ss_functional_raises_at_forward_pass (M : Model) (p : Params) (gs : Int)
    (sampler : V → Int) (src : M.Source) (targets : Targets)
    (h : p.min_ground_truth_prob < 1) :
    ComputePredictionsFunctional M p gs sampler src targets
      = Except.error "assert failed: p.min_ground_truth_prob == 1.0" := by
  unfold ComputePredictionsFunctional
  rw [if_neg (ne_of_lt h)]

/-- Witness for the amended C5 at a concrete model and configuration. -/
theorem ss_functional_raises_at_forward_pass_witness :
    ComputePredictionsFunctional Mex pSSFunc 0 samplerEx [2] targetsEx
      = Except.error "assert failed: p.min_ground_truth_prob == 1.0" :=
  ss_functional_raises_at_forward_pass Mex pSSFunc 0 samplerEx [2] targetsEx
    (by norm_num [pSSFunc, defaultParams])

/-- `embedAll` produces one embedding per target id. -/
theorem embedAll_length (M : Model) (p : Params) :
    ∀ (t0 : Nat) (ids : List Int), (embedAll M p t0 ids).length = ids.length := by
  intro t0 ids
  induction ids generalizing t0 with
  | nil => rfl
  | cons i rest ih => simp [embedAll, ih]

/-- `embedAll` does not read the unrolling-strategy flag. -/
theorem embedAll_flag (M : Model) (p : Params) (b : Bool) :
    ∀ (t0 : Nat) (ids : List Int),
      embedAll M { p with use_while_loop_based_unrolling := b } t0 ids
        = embedAll M p t0 ids := by
  intro t0 ids
  induction ids generalizing t0 with
  | nil => rfl
  | cons i rest ih =>
      simp only [embedAll]
      exact congrArg (fun l => applyEmbDropout M p t0 (M.embLookup i) :: l) (ih (t0 + 1))

/-- The sequence-level LM pass produces one output per input step. -/
theorem seqFPropLm_length (M : Model) :
    ∀ (f : M.FState) (l : List (Int × V)), ((seqFPropLm M f l).1).length = l.length := by
  intro f l
  induction l generalizing f with
  | nil => rfl
  | cons x rest ih => simp [seqFPropLm, ih]

/-- Reading a `zipWith` result within bounds reads the two operands. -/
theorem zipWith_getD {α β γ : Type} (f : α → β → γ) (da : α) (db : β) (dc : γ) :
    ∀ (as : List α) (bs : List β) (t : Nat), t < as.length → t < bs.length →
      (List.zipWith f as bs).getD t dc = f (as.getD t da) (bs.getD t db) := by
  intro as
  induction as with
  | nil => intro bs t h1 _; simp at h1
  | cons a as ih =>
      intro bs t h1 h2
      cases bs with
      | nil => simp at h2
      | cons b bs =>
          cases t with
          | zero => rfl
          | succ t =>
              simp only [List.zipWith_cons_cons, List.getD_cons_succ]
              exact ih bs t (by simpa using h1) (by simpa using h2)

/-- Shifting the per-step LM threading by one step. -/
theorem lmStateAt_cons (M : Model) (i : Int) (q : V) (ids : List Int) (pads : List V)
    (f0 : M.FState) :
    ∀ t, lmStateAt M (i :: ids) (q :: pads) f0 (t + 1)
      = lmStateAt M ids pads ((M.fPropLm f0 i q).2) t := by
  intro t
  induction t with
  | zero => rfl
  | succ t ih =>
      have h0 : lmStateAt M (i :: ids) (q :: pads) f0 (t + 1 + 1)
          = (M.fPropLm (lmStateAt M (i :: ids) (q :: pads) f0 (t + 1))
              ((i :: ids).getD (t + 1) 0) ((q :: pads).getD (t + 1) [])).2 := rfl
      rw [h0, ih]
      rfl

/-- The sequence-level LM outputs agree index-by-index with the per-step
threading of the graph-loop unroller. -/
theorem seqFPropLm_getD (M : Model) :
    ∀ (ids : List Int) (pads : List V) (f0 : M.FState) (t : Nat),
      t < ids.length → t < pads.length →
      ((seqFPropLm M f0 (ids.zip pads)).1).getD t [] = lmOutAt M ids pads f0 t := by
  intro ids
  induction ids with
  | nil => intro pads f0 t h1 _; simp at h1
  | cons i ids ih =>
      intro pads f0 t h1 h2
      cases pads with
      | nil => simp at h2
      | cons q pads =>
          cases t with
          | zero => simp [seqFPropLm, lmOutAt, lmStateAt]
          | succ t =>
              have ih2 := ih pads ((M.fPropLm f0 i q).2) t (by simpa using h1)
                (by simpa using h2)
              simp only [List.zip] at ih2
              simp only [List.zip_cons_cons, seqFPropLm, List.getD_cons_succ]
              rw [ih2]
              simp only [lmOutAt, lmStateAt_cons, List.getD_cons_succ]

/-- The layer loop does not read the unrolling-strategy flag. -/
theorem rnnLoop_flag (M : Model) (p : Params) (b : Bool) (det : Bool) (ss : StepState)
    (pad ctx : V) (prev : Nat → M.RnnState) :
    ∀ (k i : Nat) (acc : V) (ns : Nat → M.RnnState),
      rnnLoop M { p with use_while_loop_based_unrolling := b } det ss pad ctx prev i k acc ns
        = rnnLoop M p det ss pad ctx prev i k acc ns := by
  intro k
  induction k with
  | zero => intro i acc ns; rfl
  | succ k ih =>
      intro i acc ns
      simp only [rnnLoop]
      exact ih (i + 1) _ _

/-- `SingleDecodeStep` does not read the unrolling-strategy flag. -/
theorem SingleDecodeStep_flag (M : Model) (p : Params) (b : Bool)
    (packed : M.PackedSrc) (cur : TargetInfo) (st : CoreState M) (det : Bool) :
    SingleDecodeStep M { p with use_while_loop_based_unrolling := b } packed cur st det
      = SingleDecodeStep M p packed cur st det := by
  simp only [SingleDecodeStep]
  rw [rnnLoop_flag]

/-- With scheduled sampling disabled, `TargetsToBeFedAtCurrentDecodeStep`
returns exactly the buffer slots. -/
theorem targets_fed_all_ground_truth (M : Model) (p : Params) (time : Nat)
    (misc : MiscStates) (tas : TargetInfoTas) (u : ℚ) (h : ¬ maxLabelProb p > 0) :
    TargetsToBeFedAtCurrentDecodeStep M p time misc tas u
      = { id := tas.id.getD time 0, label := tas.label.getD time 0
          weight := tas.weight.getD time 0, emb := tas.emb.getD time []
          padding := tas.padding.getD time [], misc := [] } := by
  simp [TargetsToBeFedAtCurrentDecodeStep, h]

/-- `PostStepDecoderStateUpdate` under the graph-loop flag with scheduled
sampling disabled: store the logits and bump the step counter. -/
theorem post_step_while_no_ss (p : Params) (sampler : V → Int) (misc : MiscStates)
    (l : V) (hflag : p.use_while_loop_based_unrolling = true)
    (h : ¬ maxLabelProb p > 0) :
    PostStepDecoderStateUpdate p sampler misc (some l)
      = Except.ok (bumpMisc misc, some l) := by
  simp [PostStepDecoderStateUpdate, hflag, h]

/-- `PostStepDecoderStateUpdate` under the functional flag with scheduled
sampling disabled: bump the step counter. -/
theorem post_step_func_no_ss (p : Params) (sampler : V → Int) (misc : MiscStates)
    (lg : Option V) (hflag : p.use_while_loop_based_unrolling = false)
    (h : ¬ p.min_ground_truth_prob < 1) :
    PostStepDecoderStateUpdate p sampler misc lg = Except.ok (bumpMisc misc, none) := by
  simp [PostStepDecoderStateUpdate, hflag, h]

/-- With dropout inert (eval mode, or `dropout_prob = 0`),
`_ApplyDropout` is the identity whichever random branch is selected. -/
theorem applyDropout_inert (M : Model) (p : Params)
    (hdrop : p.is_eval = true ∨ p.dropout_prob = 0) (d : Bool) (e : Nat)
    (ss : StepState) (x : V) : applyDropout M p d e ss x = x := by
  rcases hdrop with h | h <;> simp [applyDropout, h]

/-- With dropout inert, the layer loop is insensitive to
`use_deterministic_random`. -/
theorem rnnLoop_det (M : Model) (p : Params)
    (hdrop : p.is_eval = true ∨ p.dropout_prob = 0) (d1 d2 : Bool) (ss : StepState)
    (pad ctx : V) (prev : Nat → M.RnnState) :
    ∀ (k i : Nat) (acc : V) (ns : Nat → M.RnnState),
      rnnLoop M p d1 ss pad ctx prev i k acc ns
        = rnnLoop M p d2 ss pad ctx prev i k acc ns := by
  intro k
  induction k with
  | zero => intro i acc ns; rfl
  | succ k ih =>
      intro i acc ns
      simp only [rnnLoop, applyDropout_inert M p hdrop]
      exact ih (i + 1) _ _

/-- With dropout inert, `SingleDecodeStep` computes the same value under
both `use_deterministic_random` call conventions (the graph-loop
unroller's `False` and the functional recurrent's `True`). -/
theorem SingleDecodeStep_false_eq_true (M : Model) (p : Params)
    (packed : M.PackedSrc) (cur : TargetInfo) (st : CoreState M)
    (hdrop : p.is_eval = true ∨ p.dropout_prob = 0) :
    SingleDecodeStep M p packed cur st false = SingleDecodeStep M p packed cur st true := by
  simp only [SingleDecodeStep]
  rw [rnnLoop_det M p hdrop false true]

/-- Folding the post-scan fusion, softmax and LM adjustment of the
functional unroller back into the scan is value-preserving (the
reordering of LM fusion outside the loop; exact equality under exact
arithmetic). -/
theorem funcFused_eq_funcScan (M : Model) (p : Params) (sampler : V → Int)
    (packed : M.PackedSrc) (inp : Nat → TargetInfo) (lmOut : Nat → V) :
    ∀ (n t : Nat) (core : CoreState M),
      funcFused M p sampler packed inp lmOut true n t core
        = (match funcScan M p sampler packed inp n t core with
           | Except.error e => Except.error e
           | Except.ok sos => Except.ok ((List.range n).map (fun j =>
               M.computeLogitsWithLM (M.softmaxLogits
                 (M.fuseOutput (lmOut (t + j)) (sos.getD j [])))))) := by
  intro n
  induction n with
  | zero => intro t core; rfl
  | succ n ih =>
      intro t core
      simp only [funcFused, funcScan]
      cases hps : PostStepDecoderStateUpdate p sampler
          (SingleDecodeStep M p packed (inp t) core true).2.misc_states
          (some [((inp t).label : ℚ)]) with
      | error e => rfl
      | ok ml =>
          obtain ⟨misc2, l2⟩ := ml
          simp only []
          rw [ih (t + 1)]
          cases hfs : funcScan M p sampler packed inp n (t + 1)
              { (SingleDecodeStep M p packed (inp t) core true).2 with misc_states := misc2 } with
          | error e => rfl
          | ok sos =>
              simp only [List.range_succ_eq_map, List.map_cons, List.map_map,
                Nat.add_zero, List.getD_cons_zero]
              refine congrArg Except.ok (congrArg (List.cons _) ?_)
              refine List.map_congr_left (fun j _ => ?_)
              simp only [Function.comp_apply, List.getD_cons_succ]
              have harith : t + 1 + j = t + (j + 1) := by omega
              rw [harith]

/-- With dropout inert, the fused reference recursion is insensitive to
the `use_deterministic_random` convention of its `SingleDecodeStep`
calls. -/
theorem funcFused_det (M : Model) (p : Params) (sampler : V → Int)
    (packed : M.PackedSrc) (inp : Nat → TargetInfo) (lmOut : Nat → V)
    (hdrop : p.is_eval = true ∨ p.dropout_prob = 0) :
    ∀ (n t : Nat) (core : CoreState M),
      funcFused M p sampler packed inp lmOut false n t core
        = funcFused M p sampler packed inp lmOut true n t core := by
  intro n
  induction n with
  | zero => intro t core; rfl
  | succ n ih =>
      intro t core
      simp only [funcFused]
      rw [SingleDecodeStep_false_eq_true M p packed (inp t) core hdrop]
      cases hps : PostStepDecoderStateUpdate p sampler
          (SingleDecodeStep M p packed (inp t) core true).2.misc_states
          (some [((inp t).label : ℚ)]) with
      | error e => rfl
      | ok ml =>
          obtain ⟨misc2, l2⟩ := ml
          simp only []
          rw [ih (t + 1)]

/-- The graph-loop unroller's per-step body agrees with the fused form of
the functional unroller: with scheduled sampling disabled both thread the
same core state, the per-step `FPropLm` threading matches the
sequence-level LM pass, and the per-step logits agree. -/
theorem dynLoop_eq_funcFused (M : Model) (p : Params) (sampler : V → Int)
    (uniform : Nat → ℚ) (packed : M.PackedSrc) (targets : Targets) (fus0 : M.FState)
    (h1 : p.min_ground_truth_prob = 1)
    (hp : targets.paddings.length = targets.ids.length) :
    ∀ (n t : Nat) (core : CoreState M), t + n ≤ targets.ids.length →
      dynLoop M { p with use_while_loop_based_unrolling := true } sampler uniform packed
          (GetInitialTargetInfo targets (embedAll M p 0 targets.ids)) n t core
          (lmStateAt M targets.ids (padsOf targets) fus0 t)
        = funcFused M { p with use_while_loop_based_unrolling := false } sampler packed
            (funcInputs targets (List.zipWith M.fuseEmb
              ((seqFPropLm M fus0 (targets.ids.zip (padsOf targets))).1)
              (embedAll M p 0 targets.ids)))
            (lmOutAt M targets.ids (padsOf targets) fus0) false n t core := by
  have hmlp : ¬ maxLabelProb { p with use_while_loop_based_unrolling := true } > 0 := by
    simp [maxLabelProb, h1]
  have hpadLen : (padsOf targets).length = targets.ids.length := by
    simp [padsOf, hp]
  have hembLen : (embedAll M p 0 targets.ids).length = targets.ids.length :=
    embedAll_length M p 0 targets.ids
  have hlmLen : ((seqFPropLm M fus0 (targets.ids.zip (padsOf targets))).1).length
      = targets.ids.length := by
    rw [seqFPropLm_length]
    simp [List.length_zip, hpadLen]
  intro n
  induction n with
  | zero => intro t core _; rfl
  | succ n ih =>
      intro t core hbound
      have htT : t < targets.ids.length := by omega
      have hfed := targets_fed_all_ground_truth M
        { p with use_while_loop_based_unrolling := true } t core.misc_states
        (GetInitialTargetInfo targets (embedAll M p 0 targets.ids)) (uniform t) hmlp
      have hfe : (List.zipWith M.fuseEmb
          ((seqFPropLm M fus0 (targets.ids.zip (padsOf targets))).1)
          (embedAll M p 0 targets.ids)).getD t []
          = M.fuseEmb (lmOutAt M targets.ids (padsOf targets) fus0 t)
              ((embedAll M p 0 targets.ids).getD t []) := by
        rw [zipWith_getD M.fuseEmb [] [] [] _ _ t (by omega) (by omega),
          seqFPropLm_getD M targets.ids (padsOf targets) fus0 t htT (by omega)]
      simp only [dynLoop, funcFused]
      rw [hfed]
      simp only [GetInitialTargetInfo, funcInputs, OverrideEmbedding, hfe]
      have hlm1 : (M.fPropLm (lmStateAt M targets.ids (padsOf targets) fus0 t)
          (targets.ids.getD t 0) ((padsOf targets).getD t [])).1
          = lmOutAt M targets.ids (padsOf targets) fus0 t := rfl
      have hlm2 : (M.fPropLm (lmStateAt M targets.ids (padsOf targets) fus0 t)
          (targets.ids.getD t 0) ((padsOf targets).getD t [])).2
          = lmStateAt M targets.ids (padsOf targets) fus0 (t + 1) := rfl
      rw [hlm1, hlm2, SingleDecodeStep_flag M p true, SingleDecodeStep_flag M p false,
        post_step_while_no_ss _ sampler _ _ rfl hmlp,
        post_step_func_no_ss _ sampler _ _ rfl (by simp [h1])]
      simp only []
      simp only [GetInitialTargetInfo] at ih
      rw [ih (t + 1) _ (by omega)]

/-- Claim C1 (amended): with scheduled sampling disabled
(`min_ground_truth_prob = 1`), with dropout inert (eval mode or
`dropout_prob = 0` — with active dropout the graph-loop unroller draws
nondeterministic `tf.nn.dropout` masks while the functional unroller
uses step-seeded `DeterministicDropout`, and the logits genuinely
diverge; see the counterexample), and under the configurations each
unroller actually runs with (the graph-loop unroller with
`use_while_loop_based_unrolling`, the function-based unroller without;
`softmax_uses_attention` as required by the graph-loop softmax call), the
two unrollers produce identical per-step `logits` on identical
collaborators, source, and target sequence.  In the exact-arithmetic
embedding the floating-point tolerance of the claim becomes exact
equality. -/
theorem dynamic_functional_unrollers_agree (M : Model) (p : Params) (global_step : Int)
    (sampler : V → Int) (uniform : Nat → ℚ) (src : M.Source) (targets : Targets)
    (h1 : p.min_ground_truth_prob = 1) (h2 : p.softmax_uses_attention = true)
    (hdrop : p.is_eval = true ∨ p.dropout_prob = 0)
    (hp : targets.paddings.length = targets.ids.length) :
    ComputePredictionsDynamic M { p with use_while_loop_based_unrolling := true }
        global_step sampler uniform src targets
      = ComputePredictionsFunctional M { p with use_while_loop_based_unrolling := false }
          global_step sampler src targets := by
  have hpadLen : (padsOf targets).length = targets.ids.length := by
    simp [padsOf, hp]
  have hlmLen : ((seqFPropLm M (DecoderStepZeroState M p global_step src targets.ids).2.1
      (targets.ids.zip (padsOf targets))).1).length = targets.ids.length := by
    rw [seqFPropLm_length]
    simp [List.length_zip, hpadLen]
  have hzT : DecoderStepZeroState M { p with use_while_loop_based_unrolling := true }
      global_step src targets.ids = DecoderStepZeroState M p global_step src targets.ids := rfl
  have hzF : DecoderStepZeroState M { p with use_while_loop_based_unrolling := false }
      global_step src targets.ids = DecoderStepZeroState M p global_step src targets.ids := rfl
  simp only [ComputePredictionsDynamic, ComputePredictionsFunctional]
  rw [if_pos (show ({ p with use_while_loop_based_unrolling := false } : Params).min_ground_truth_prob = 1 from h1)]
  rw [hzT, hzF, embedAll_flag M p true, embedAll_flag M p false]
  conv_lhs =>
    rw [show (DecoderStepZeroState M p global_step src targets.ids).2.1
      = lmStateAt M targets.ids (padsOf targets)
          (DecoderStepZeroState M p global_step src targets.ids).2.1 0 from rfl]
  rw [dynLoop_eq_funcFused M p sampler uniform
    (DecoderStepZeroState M p global_step src targets.ids).2.2 targets
    (DecoderStepZeroState M p global_step src targets.ids).2.1 h1 hp
    targets.ids.length 0 (DecoderStepZeroState M p global_step src targets.ids).1
    (by omega)]
  rw [funcFused_det M { p with use_while_loop_based_unrolling := false } sampler _ _ _ hdrop]
  rw [funcFused_eq_funcScan]
  cases hfs : funcScan M { p with use_while_loop_based_unrolling := false } sampler
      (DecoderStepZeroState M p global_step src targets.ids).2.2
      (funcInputs targets (List.zipWith M.fuseEmb
        ((seqFPropLm M (DecoderStepZeroState M p global_step src targets.ids).2.1
          (targets.ids.zip (padsOf targets))).1)
        (embedAll M p 0 targets.ids)))
      targets.ids.length 0 (DecoderStepZeroState M p global_step src targets.ids).1 with
  | error e => rfl
  | ok sos =>
      simp only [h2, if_true]
      refine congrArg Except.ok (List.map_congr_left (fun j hj => ?_))
      have hjT : j < targets.ids.length := List.mem_range.mp hj
      rw [Nat.zero_add, seqFPropLm_getD M targets.ids (padsOf targets) _ j hjT (by omega)]

/-- Claim C1 (counterexample): at a training configuration with active
dropout (`dropout_prob = 1/2`, not eval), scheduled sampling disabled,
`softmax_uses_attention` set and well-formed targets — i.e. inside the
original claim's scope — the two unrollers produce different logits: the
graph-loop unroller calls `SingleDecodeStep` with
`use_deterministic_random=False` (nondeterministic `tf.nn.dropout`
masks), the functional unroller with `True` (step-seeded
`DeterministicDropout`), and the two random mechanisms draw different
masks, a divergence far beyond fusion-reordering tolerance. -/
theorem unrollers_dropout_counterexample :
    pCd.min_ground_truth_prob = 1 ∧ pCd.softmax_uses_attention = true ∧
    targetsCd.paddings.length = targetsCd.ids.length ∧
    ComputePredictionsDynamic Mcd { pCd with use_while_loop_based_unrolling := true }
        0 samplerEx uniformEx [0] targetsCd
      ≠ ComputePredictionsFunctional Mcd { pCd with use_while_loop_based_unrolling := false }
          0 samplerEx [0] targetsCd := by
  refine ⟨rfl, rfl, rfl, ?_⟩
  have hd : ComputePredictionsDynamic Mcd { pCd with use_while_loop_based_unrolling := true }
      0 samplerEx uniformEx [0] targetsCd = Except.ok [[4, 10]] := by
    simp only [ComputePredictionsDynamic, dynLoop, TargetsToBeFedAtCurrentDecodeStep,
      OverrideEmbedding, SingleDecodeStep, rnnLoop, applyDropout, applyEmbDropout,
      embedAll, GetInitialTargetInfo, padsOf, CreateTargetInfoMisc, DecoderStepZeroState,
      MiscZeroState, BaseZeroState, maxLabelProb, PostStepDecoderStateUpdate, bumpMisc,
      vadd, Mcd, pCd, defaultParams, targetsCd, samplerEx, uniformEx]
    norm_num
  have hf : ComputePredictionsFunctional Mcd
      { pCd with use_while_loop_based_unrolling := false } 0 samplerEx [0] targetsCd
      = Except.ok [[2, 10]] := by
    simp only [ComputePredictionsFunctional, funcScan, funcInputs, seqFPropLm,
      SingleDecodeStep, rnnLoop, applyDropout, applyEmbDropout, embedAll,
      GetInitialTargetInfo, padsOf, CreateTargetInfoMisc, DecoderStepZeroState,
      MiscZeroState, BaseZeroState, maxLabelProb, PostStepDecoderStateUpdate, bumpMisc,
      vadd, Mcd, pCd, defaultParams, targetsCd, samplerEx]
    norm_num
    simp [List.range_succ]
  rw [hd, hf]
  intro hc
  simp only [Except.ok.injEq, List.cons.injEq] at hc
  norm_num at hc

/-- Witness for the amended C1 at a concrete collaborator assembly with
stateful LM fusion and step-state-dependent attention, dropout disabled. -/
theorem dynamic_functional_unrollers_agree_witness :
    ComputePredictionsDynamic Mex { pW with use_while_loop_based_unrolling := true }
        5 samplerEx uniformEx [2] targetsEx
      = ComputePredictionsFunctional Mex { pW with use_while_loop_based_unrolling := false }
          5 samplerEx [2] targetsEx :=
  dynamic_functional_unrollers_agree Mex pW 5 samplerEx uniformEx [2] targetsEx rfl rfl
    (Or.inr rfl) rfl
